import Mathlib

/-!
Verification of the tone-assist real-time audio analyzer core.

The definitions below are a shallow embedding of the TypeScript sources:
JavaScript numbers are modelled as exact rationals (for the store and the
silence detector, whose arithmetic is order/min/max/affine) or as reals
(for the DSP utilities, which use pow/sqrt/log10).
-/

namespace ToneAssist

/-! ## Audio store (src/stores/audioStore.ts) -/

inductive ChannelMode
  | mono
  | stereo
  | auto
deriving DecidableEq

inductive EffectiveMode
  | mono
  | stereo
deriving DecidableEq

structure ActiveChannels where
  left : Bool
  right : Bool
deriving DecidableEq

structure FilterPreset where
  name : String
  hpf : ℚ
  lpf : ℚ
deriving DecidableEq

def voicePreset : FilterPreset := { name := "Voice", hpf := 300, lpf := 3400 }

def bassPreset : FilterPreset := { name := "Bass", hpf := 20, lpf := 250 }

def midPreset : FilterPreset := { name := "Mid", hpf := 250, lpf := 4000 }

def treblePreset : FilterPreset := { name := "Treble", hpf := 4000, lpf := 20000 }

def kickPreset : FilterPreset := { name := "Kick", hpf := 40, lpf := 100 }

def snarePreset : FilterPreset := { name := "Snare", hpf := 150, lpf := 6000 }

def cymbalsPreset : FilterPreset := { name := "Cymbals", hpf := 6000, lpf := 20000 }

def widePreset : FilterPreset := { name := "Wide", hpf := 20, lpf := 20000 }

def FILTER_PRESETS : List FilterPreset :=
  [voicePreset, bassPreset, midPreset, treblePreset,
   kickPreset, snarePreset, cymbalsPreset, widePreset]

/-- The mutable state of the Pinia audio store, restricted to the fields the
filter model and routing decision read or write. -/
structure AudioState where
  hpfCutoff : ℚ
  lpfCutoff : ℚ
  minFilterDistance : ℚ
  fixedDistanceEnabled : Bool
  fixedDistance : ℚ
  channelMode : ChannelMode
  inputChannelCount : ℚ
  activeChannels : ActiveChannels
deriving DecidableEq

/-- Initial values of the store refs. -/
def initialState : AudioState where
  hpfCutoff := 80
  lpfCutoff := 12000
  minFilterDistance := 10
  fixedDistanceEnabled := false
  fixedDistance := 1000
  channelMode := .auto
  inputChannelCount := 1
  activeChannels := { left := true, right := false }

def setHpfCutoff (frequency : ℚ) (s : AudioState) : AudioState :=
  if s.fixedDistanceEnabled then
    let newHpf := max 20 (min (20000 - s.fixedDistance) frequency)
    let newLpf := newHpf + s.fixedDistance
    { s with hpfCutoff := newHpf, lpfCutoff := min 20000 newLpf }
  else
    let maxHpf := s.lpfCutoff - s.minFilterDistance
    { s with hpfCutoff := max 20 (min maxHpf frequency) }

def setLpfCutoff (frequency : ℚ) (s : AudioState) : AudioState :=
  if s.fixedDistanceEnabled then
    let newLpf := max (s.fixedDistance + 20) (min 20000 frequency)
    let newHpf := newLpf - s.fixedDistance
    { s with lpfCutoff := newLpf, hpfCutoff := max 20 newHpf }
  else
    let minLpf := s.hpfCutoff + s.minFilterDistance
    { s with lpfCutoff := max minLpf (min 20000 frequency) }

def getEffectiveChannelMode (s : AudioState) : EffectiveMode :=
  match s.channelMode with
  | .mono => .mono
  | .stereo => .stereo
  | .auto =>
      if 2 ≤ s.inputChannelCount ∧ s.activeChannels.left = true ∧
          s.activeChannels.right = true then
        .stereo
      else
        .mono

/-- `toggleFixedDistance` flips the flag, captures the current gap as the
fixed distance when enabling, and returns the new flag value. -/
def toggleFixedDistance (s : AudioState) : AudioState × Bool :=
  let s1 := { s with fixedDistanceEnabled := !s.fixedDistanceEnabled }
  let s2 :=
    if s1.fixedDistanceEnabled then
      { s1 with
          fixedDistance := max s1.minFilterDistance (s1.lpfCutoff - s1.hpfCutoff) }
    else s1
  (s2, s2.fixedDistanceEnabled)

def setFixedDistance (distance : ℚ) (s : AudioState) : AudioState :=
  { s with fixedDistance := max s.minFilterDistance distance }

def applyPreset (preset : FilterPreset) (s : AudioState) : AudioState :=
  if s.fixedDistanceEnabled then
    let currentDistance := s.lpfCutoff - s.hpfCutoff
    { s with hpfCutoff := preset.hpf, lpfCutoff := preset.hpf + currentDistance }
  else
    { s with hpfCutoff := preset.hpf, lpfCutoff := preset.lpf }

/-! ## Silence detector (useSilenceDetector composable) -/

def SILENCE_THRESHOLD_DB : ℚ := -60

def SILENCE_DURATION_MS : ℚ := 500

structure ChannelState where
  isSilent : Bool
  silenceStartTime : Option ℚ
deriving DecidableEq

structure SilenceState where
  left : ChannelState
  right : ChannelState
deriving DecidableEq

def initialSilenceState : SilenceState where
  left := { isSilent := false, silenceStartTime := none }
  right := { isSilent := false, silenceStartTime := none }

/-- `updateChannelActivity`, parametrized by the channel's RMS level in dB
(`rmsDb`): the source computes `rmsDb = 20 * log10 (max 1e-10 (RMS freqData))`
from the spectrum and all subsequent logic reads the spectrum only through
this value. Returns the updated channel state paired with the function's
return value `!isSilent`. -/
def updateChannelActivity (rmsDb currentTime : ℚ) (st : ChannelState) :
    ChannelState × Bool :=
  let st1 :=
    if rmsDb < SILENCE_THRESHOLD_DB then
      match st.silenceStartTime with
      | none => { st with silenceStartTime := some currentTime, isSilent := false }
      | some t0 =>
          if SILENCE_DURATION_MS ≤ currentTime - t0 ∧ st.isSilent = false then
            { st with isSilent := true }
          else st
    else { silenceStartTime := none, isSilent := false }
  (st1, !st1.isSilent)

/-- The per-channel determination inside `updateSilenceDetection`
(the ternary `data ? updateChannelActivity(...) : false`): a missing
spectrum yields an inactive determination and an untouched channel state. -/
def channelDetermination (data : Option ℚ) (currentTime : ℚ)
    (st : ChannelState) : ChannelState × Bool :=
  match data with
  | some rmsDb => updateChannelActivity rmsDb currentTime st
  | none => (st, false)

def updateSilenceDetection (leftData rightData : Option ℚ) (currentTime : ℚ)
    (st : SilenceState) : SilenceState × ActiveChannels :=
  let pL := channelDetermination leftData currentTime st.left
  let pR := channelDetermination rightData currentTime st.right
  let base : ActiveChannels := { left := pL.2, right := pR.2 }
  let ac :=
    if pL.2 = false ∧ pR.2 = false then
      if leftData.isSome then { base with left := true }
      else if rightData.isSome then { base with right := true }
      else base
    else base
  ({ left := pL.1, right := pR.1 }, ac)

/-! ## DSP utilities (logBands.ts), modelled over the reals

JavaScript numbers here flow through `Math.pow`, `Math.sqrt` and
`Math.log10`, so this part of the embedding idealizes them as real numbers. -/

structure LogBandEdge where
  fLow : ℝ
  fHigh : ℝ
  fCenter : ℝ

noncomputable def makeLogBands (fMin fMax : ℝ) (bands : ℕ) : List LogBandEdge :=
  (List.range bands).map fun (i : ℕ) =>
    let fLow := fMin * (fMax / fMin) ^ ((i : ℝ) / (bands : ℝ))
    let fHigh := fMin * (fMax / fMin) ^ (((i : ℝ) + 1) / (bands : ℝ))
    { fLow := fLow, fHigh := fHigh, fCenter := Real.sqrt (fLow * fHigh) }

noncomputable def freqToBin (freq sampleRate fftSize : ℝ) : ℝ :=
  max 0 (min (fftSize / 2 - 1) (⌊freq / sampleRate * fftSize⌋ : ℝ))

/-- The index sequence of the JS loop `for (k = k0; k < k1; k++)`. -/
noncomputable def loopIndices (k0 k1 : ℝ) : List ℝ :=
  (List.range ⌈k1 - k0⌉.toNat).map fun (j : ℕ) => k0 + (j : ℝ)

inductive Reducer
  | mean
  | max
  | rms
deriving DecidableEq

/-- One band's aggregated value before the final clamp: the body of the
`switch` in `aggregateBands` over the bin range `[k0, k1)`, with the JS
`-Infinity` seed of the `max` reducer realized as the maximum over the
nonempty range. -/
noncomputable def bandValue (data : ℝ → ℝ) (k0 k1 : ℝ) (reducer : Reducer) : ℝ :=
  if k0 < k1 then
    match reducer with
    | .mean => ((loopIndices k0 k1).map data).sum / (k1 - k0)
    | .max =>
        match (loopIndices k0 k1).map data with
        | [] => -120
        | v :: vs => vs.foldl Max.max v
    | .rms =>
        let sumSquares :=
          ((loopIndices k0 k1).map fun k =>
            (10 : ℝ) ^ (data k / 20) * (10 : ℝ) ^ (data k / 20)).sum
        20 * Real.logb 10 (max 1e-10 (Real.sqrt (sumSquares / (k1 - k0))))
  else -120

noncomputable def aggregateBands (data : ℝ → ℝ) (sampleRate fftSize : ℝ)
    (bands : List LogBandEdge) (reducer : Reducer) : List ℝ :=
  bands.map fun b =>
    let k0 := freqToBin b.fLow sampleRate fftSize
    let k1 := max (k0 + 1) (freqToBin b.fHigh sampleRate fftSize)
    max (-100) (min 0 (bandValue data k0 k1 reducer))

noncomputable def frequencyToLogX (frequency fMin fMax width : ℝ) : ℝ :=
  let logMin := Real.logb 10 fMin
  let logMax := Real.logb 10 fMax
  let logFreq := Real.logb 10 (max fMin (min fMax frequency))
  (logFreq - logMin) / (logMax - logMin) * width

noncomputable def logXToFrequency (x fMin fMax width : ℝ) : ℝ :=
  let logMin := Real.logb 10 fMin
  let logMax := Real.logb 10 fMax
  (10 : ℝ) ^ (logMin + x / width * (logMax - logMin))

/-- Default band record used with `List.getD` when stating element-wise
properties of `makeLogBands`. -/
noncomputable def dummyBand : LogBandEdge :=
  { fLow := 0, fHigh := 0, fCenter := 0 }

/-- C1: the spec's filter-model invariant `20 ≤ hpfCutoff < lpfCutoff ≤ 20000`
does not survive every sequence of the listed calls: from the initial state,
`applyPreset Wide` then `toggleFixedDistance` captures `fixedDistance = 19980`,
and a further `applyPreset Voice` in fixed mode assigns
`lpfCutoff = 300 + 19980 = 20280 > 20000` without clamping, breaking the
invariant (the fixed-mode branch of `applyPreset` is the only mutation path
with no clamp). -/
theorem applyPreset_fixed_mode_breaks_invariant :
    ((applyPreset voicePreset
        (toggleFixedDistance (applyPreset widePreset initialState)).1).lpfCutoff
      = 20280) ∧
    20000 <
      (applyPreset voicePreset
        (toggleFixedDistance (applyPreset widePreset initialState)).1).lpfCutoff := by
  constructor <;>
    norm_num [applyPreset, toggleFixedDistance, setHpfCutoff, initialState,
      widePreset, voicePreset]

/-- C3: from the initial free-mode state (`hpf = 80`, `lpf = 12000`),
`toggleFixedDistance` enables fixed mode and captures
`fixedDistance = 11920` without moving either cutoff, and a subsequent
`setHpfCutoff 15000` clamps the HPF to `20000 - 11920 = 8080` and sets the
LPF to `20000`. -/
theorem toggle_then_setHpf_scenario :
    ((toggleFixedDistance initialState).1.fixedDistanceEnabled = true) ∧
    ((toggleFixedDistance initialState).1.fixedDistance = 11920) ∧
    ((toggleFixedDistance initialState).1.hpfCutoff = 80) ∧
    ((toggleFixedDistance initialState).1.lpfCutoff = 12000) ∧
    ((setHpfCutoff 15000 (toggleFixedDistance initialState).1).hpfCutoff = 8080) ∧
    ((setHpfCutoff 15000 (toggleFixedDistance initialState).1).lpfCutoff = 20000) := by
  refine ⟨?_, ?_, ?_, ?_, ?_, ?_⟩ <;>
    norm_num [toggleFixedDistance, setHpfCutoff, initialState]

/-- C5: `getEffectiveChannelMode` returns `mono` under explicit mono mode,
`stereo` under explicit stereo mode, and in auto mode returns `stereo` iff
the input has at least two channels and both channels are active. -/
theorem getEffectiveChannelMode_spec (s : AudioState) :
    (s.channelMode = .mono → getEffectiveChannelMode s = .mono) ∧
    (s.channelMode = .stereo → getEffectiveChannelMode s = .stereo) ∧
    (s.channelMode = .auto →
      ((getEffectiveChannelMode s = .stereo ↔
          (2 ≤ s.inputChannelCount ∧ s.activeChannels.left = true ∧
            s.activeChannels.right = true)) ∧
        (getEffectiveChannelMode s = .mono ↔
          ¬(2 ≤ s.inputChannelCount ∧ s.activeChannels.left = true ∧
            s.activeChannels.right = true)))) := by
  refine ⟨?_, ?_, ?_⟩ <;> intro h
  · simp only [getEffectiveChannelMode, h]
  · simp only [getEffectiveChannelMode, h]
  · simp only [getEffectiveChannelMode, h]
    by_cases hc : 2 ≤ s.inputChannelCount ∧ s.activeChannels.left = true ∧
        s.activeChannels.right = true <;>
      simp [hc]

/-- Witness for C5 at the initial state (auto mode, one input channel):
effective mode is mono. -/
theorem getEffectiveChannelMode_spec_witness :
    getEffectiveChannelMode initialState = .mono :=
  ((getEffectiveChannelMode_spec initialState).2.2 rfl).2.mpr (by decide)

/-- C9: `setFixedDistance d` sets `fixedDistance` to
`max minFilterDistance d`, leaves the cutoffs and the mode flag unchanged,
and imposes no upper cap: the fixed distance can be driven above 19980 Hz,
the widest gap expressible within `[20, 20000]`. -/
theorem setFixedDistance_spec :
    (∀ (s : AudioState) (d : ℚ),
      (setFixedDistance d s).fixedDistance = max s.minFilterDistance d ∧
      (setFixedDistance d s).hpfCutoff = s.hpfCutoff ∧
      (setFixedDistance d s).lpfCutoff = s.lpfCutoff ∧
      (setFixedDistance d s).fixedDistanceEnabled = s.fixedDistanceEnabled) ∧
    (setFixedDistance 30000 initialState).fixedDistance = 30000 ∧
    19980 < (setFixedDistance 30000 initialState).fixedDistance := by
  refine ⟨fun s d => ⟨rfl, rfl, rfl, rfl⟩, ?_, ?_⟩ <;>
    norm_num [setFixedDistance, initialState]

/-- C2: the silence state machine on a detector tick: below -60 dB with no
timer running, the timer starts at the current time, `isSilent` stays false
and the channel still reports active; below -60 dB with a timer at least
500 ms old, `isSilent` becomes (or stays) true and the channel reports
inactive; at or above -60 dB the state resets unconditionally
(`silenceStartTime = none`, `isSilent = false`), so a single above-threshold
tick reports active again with no debounce on recovery. -/
theorem updateChannelActivity_spec (rmsDb currentTime : ℚ) (st : ChannelState) :
    (rmsDb < -60 → st.silenceStartTime = none →
      updateChannelActivity rmsDb currentTime st =
        ({ isSilent := false, silenceStartTime := some currentTime }, true)) ∧
    (∀ t0, rmsDb < -60 → st.silenceStartTime = some t0 →
      500 ≤ currentTime - t0 →
      (updateChannelActivity rmsDb currentTime st).1.isSilent = true ∧
      (updateChannelActivity rmsDb currentTime st).2 = false) ∧
    (-60 ≤ rmsDb →
      updateChannelActivity rmsDb currentTime st =
        ({ isSilent := false, silenceStartTime := none }, true)) := by
  refine ⟨?_, ?_, ?_⟩
  · intro hlt hnone
    simp [updateChannelActivity, SILENCE_THRESHOLD_DB, hlt, hnone]
  · intro t0 hlt hsome hdur
    cases hsil : st.isSilent
    · simp [updateChannelActivity, SILENCE_THRESHOLD_DB, SILENCE_DURATION_MS,
        hlt, hsome, hdur, hsil]
    · simp [updateChannelActivity, SILENCE_THRESHOLD_DB, SILENCE_DURATION_MS,
        hlt, hsome, hsil]
  · intro hge
    have hnlt : ¬(rmsDb < SILENCE_THRESHOLD_DB) := by
      simp only [SILENCE_THRESHOLD_DB, not_lt]
      exact hge
    simp [updateChannelActivity, hnlt]

/-- Witness for C2: below threshold with no timer, the timer starts and the
channel reports active. -/
theorem updateChannelActivity_spec_witness :
    ((-70 : ℚ) < -60) ∧
    updateChannelActivity (-70) 100 { isSilent := false, silenceStartTime := none } =
      ({ isSilent := false, silenceStartTime := some 100 }, true) :=
  ⟨by norm_num,
   (updateChannelActivity_spec (-70) 100
      { isSilent := false, silenceStartTime := none }).1 (by norm_num) rfl⟩

/-- C4: `updateSilenceDetection`: with at least one non-null spectrum the
returned `ActiveChannels` has an active channel; when both per-channel
determinations come out inactive, the forced channel is left if left data is
present, otherwise right; and a null spectrum yields an inactive
determination with an untouched channel state, never an error. -/
theorem updateSilenceDetection_spec (leftData rightData : Option ℚ)
    (currentTime : ℚ) (st : SilenceState) :
    (leftData.isSome = true ∨ rightData.isSome = true →
      (updateSilenceDetection leftData rightData currentTime st).2.left = true ∨
      (updateSilenceDetection leftData rightData currentTime st).2.right = true) ∧
    ((channelDetermination leftData currentTime st.left).2 = false →
      (channelDetermination rightData currentTime st.right).2 = false →
      (updateSilenceDetection leftData rightData currentTime st).2.left
          = leftData.isSome ∧
      (updateSilenceDetection leftData rightData currentTime st).2.right
          = (!leftData.isSome && rightData.isSome)) ∧
    (∀ cst, channelDetermination none currentTime cst = (cst, false)) := by
  refine ⟨?_, ?_, fun cst => rfl⟩
  · intro hdata
    cases hdL : (channelDetermination leftData currentTime st.left).2
    · cases hdR : (channelDetermination rightData currentTime st.right).2
      · cases hsome : leftData.isSome
        · have hr : rightData.isSome = true := by
            rcases hdata with h | h
            · rw [hsome] at h; cases h
            · exact h
          simp [updateSilenceDetection, hdL, hdR, hsome, hr]
        · simp [updateSilenceDetection, hdL, hdR, hsome]
      · simp [updateSilenceDetection, hdL, hdR]
    · simp [updateSilenceDetection, hdL]
  · intro hdL hdR
    cases hsome : leftData.isSome
    · cases hrsome : rightData.isSome
      · simp [updateSilenceDetection, hdL, hdR, hsome, hrsome]
      · simp [updateSilenceDetection, hdL, hdR, hsome, hrsome]
    · simp [updateSilenceDetection, hdL, hdR, hsome]

/-- Witness for C4: with left data present and right missing, the result
reports an active channel. -/
theorem updateSilenceDetection_spec_witness :
    ((some (-70 : ℚ)).isSome = true ∨ (none : Option ℚ).isSome = true) ∧
    ((updateSilenceDetection (some (-70)) none 100 initialSilenceState).2.left = true ∨
      (updateSilenceDetection (some (-70)) none 100 initialSilenceState).2.right = true) :=
  ⟨Or.inl rfl,
   (updateSilenceDetection_spec (some (-70)) none 100 initialSilenceState).1
     (Or.inl rfl)⟩

/-- Element `i` of `makeLogBands` in closed form. -/
theorem makeLogBands_getD (fMin fMax : ℝ) (n i : ℕ) (hi : i < n) :
    (makeLogBands fMin fMax n).getD i dummyBand =
      { fLow := fMin * (fMax / fMin) ^ ((i : ℝ) / (n : ℝ)),
        fHigh := fMin * (fMax / fMin) ^ (((i : ℝ) + 1) / (n : ℝ)),
        fCenter := Real.sqrt
          ((fMin * (fMax / fMin) ^ ((i : ℝ) / (n : ℝ))) *
            (fMin * (fMax / fMin) ^ (((i : ℝ) + 1) / (n : ℝ)))) } := by
  rw [makeLogBands, List.getD_eq_getElem?_getD, List.getElem?_map,
    List.getElem?_range hi]
  rfl

/-- C6: `makeLogBands fMin fMax n` (with `0 < fMin < fMax`, `n ≥ 1`) returns
exactly `n` bands whose edges follow the closed form
`fLow = fMin * (fMax / fMin) ^ (i / n)`,
`fHigh = fMin * (fMax / fMin) ^ ((i + 1) / n)`, and whose center is the
geometric mean of the edges; consequently consecutive bands are contiguous
(`band i .fHigh = band (i+1) .fLow`), each band is increasing
(`fLow < fHigh`), the first band starts at `fMin` and the last ends at
`fMax` (exactly, in the idealized real arithmetic). -/
theorem makeLogBands_spec (fMin fMax : ℝ) (n : ℕ) (hmin : 0 < fMin)
    (hlt : fMin < fMax) (hn : 1 ≤ n) :
    (makeLogBands fMin fMax n).length = n ∧
    (∀ i, i < n →
      ((makeLogBands fMin fMax n).getD i dummyBand).fLow
          = fMin * (fMax / fMin) ^ ((i : ℝ) / (n : ℝ)) ∧
      ((makeLogBands fMin fMax n).getD i dummyBand).fHigh
          = fMin * (fMax / fMin) ^ (((i : ℝ) + 1) / (n : ℝ)) ∧
      ((makeLogBands fMin fMax n).getD i dummyBand).fCenter
          = Real.sqrt (((makeLogBands fMin fMax n).getD i dummyBand).fLow *
              ((makeLogBands fMin fMax n).getD i dummyBand).fHigh)) ∧
    (∀ i, i + 1 < n →
      ((makeLogBands fMin fMax n).getD i dummyBand).fHigh
          = ((makeLogBands fMin fMax n).getD (i + 1) dummyBand).fLow) ∧
    (∀ i, i < n →
      ((makeLogBands fMin fMax n).getD i dummyBand).fLow
          < ((makeLogBands fMin fMax n).getD i dummyBand).fHigh) ∧
    ((makeLogBands fMin fMax n).getD 0 dummyBand).fLow = fMin ∧
    ((makeLogBands fMin fMax n).getD (n - 1) dummyBand).fHigh = fMax := by
  have hn0 : (0 : ℝ) < (n : ℝ) := by exact_mod_cast hn
  have hr : 1 < fMax / fMin := (one_lt_div hmin).mpr hlt
  refine ⟨?_, ?_, ?_, ?_, ?_, ?_⟩
  · simp [makeLogBands]
  · intro i hi
    rw [makeLogBands_getD fMin fMax n i hi]
    exact ⟨rfl, rfl, rfl⟩
  · intro i hi1
    have hi : i < n := Nat.lt_of_succ_lt hi1
    rw [makeLogBands_getD fMin fMax n i hi,
      makeLogBands_getD fMin fMax n (i + 1) hi1]
    norm_cast
  · intro i hi
    rw [makeLogBands_getD fMin fMax n i hi]
    have hexp : (i : ℝ) / (n : ℝ) < ((i : ℝ) + 1) / (n : ℝ) :=
      div_lt_div_of_pos_right (by linarith) hn0
    exact mul_lt_mul_of_pos_left
      ((Real.rpow_lt_rpow_left_iff hr).mpr hexp) hmin
  · rw [makeLogBands_getD fMin fMax n 0 (by omega)]
    simp [Real.rpow_zero]
  · have key : (((n - 1 : ℕ) : ℝ) + 1) / (n : ℝ) = 1 := by
      rw [Nat.cast_sub hn, Nat.cast_one, sub_add_cancel]
      exact div_self (ne_of_gt hn0)
    rw [makeLogBands_getD fMin fMax n (n - 1) (by omega)]
    dsimp only
    rw [key, Real.rpow_one, mul_comm, div_mul_cancel₀ fMax (ne_of_gt hmin)]

/-- Witness for C6 at the production configuration (20 Hz – 20 kHz,
120 bands). -/
theorem makeLogBands_spec_witness :
    (0 : ℝ) < 20 ∧ (20 : ℝ) < 20000 ∧ 1 ≤ 120 ∧
    (makeLogBands 20 20000 120).length = 120 ∧
    ((makeLogBands 20 20000 120).getD 0 dummyBand).fLow = 20 ∧
    ((makeLogBands 20 20000 120).getD (120 - 1) dummyBand).fHigh = 20000 :=
  ⟨by norm_num, by norm_num, by norm_num,
   (makeLogBands_spec 20 20000 120 (by norm_num) (by norm_num) (by norm_num)).1,
   (makeLogBands_spec 20 20000 120 (by norm_num) (by norm_num)
     (by norm_num)).2.2.2.2.1,
   (makeLogBands_spec 20 20000 120 (by norm_num) (by norm_num)
     (by norm_num)).2.2.2.2.2⟩

/-- C7: `logXToFrequency` inverts `frequencyToLogX` exactly (under the
idealized real arithmetic) for every `f ∈ [fMin, fMax]`, `0 < fMin < fMax`
and `width > 0`; in particular for `f ∈ [20, 20000]` and `width ≥ 500` the
round-trip error is below 0.5 Hz. -/
theorem logX_roundtrip :
    (∀ f fMin fMax width : ℝ, 0 < fMin → fMin < fMax → 0 < width →
      fMin ≤ f → f ≤ fMax →
      logXToFrequency (frequencyToLogX f fMin fMax width) fMin fMax width = f) ∧
    (∀ f width : ℝ, 20 ≤ f → f ≤ 20000 → 500 ≤ width →
      |logXToFrequency (frequencyToLogX f 20 20000 width) 20 20000 width - f|
        < 1 / 2) := by
  have main : ∀ f fMin fMax width : ℝ, 0 < fMin → fMin < fMax → 0 < width →
      fMin ≤ f → f ≤ fMax →
      logXToFrequency (frequencyToLogX f fMin fMax width) fMin fMax width = f := by
    intro f fMin fMax width hmin hdom hw hlow hhigh
    have hfpos : 0 < f := lt_of_lt_of_le hmin hlow
    have hclamp : max fMin (min fMax f) = f := by
      rw [min_eq_right hhigh, max_eq_right hlow]
    have hlog : Real.logb 10 fMin < Real.logb 10 fMax :=
      Real.logb_lt_logb (by norm_num) hmin hdom
    have hne : Real.logb 10 fMax - Real.logb 10 fMin ≠ 0 :=
      sub_ne_zero.mpr (ne_of_gt hlog)
    simp only [logXToFrequency, frequencyToLogX, hclamp]
    rw [mul_div_cancel_right₀ _ (ne_of_gt hw), div_mul_cancel₀ _ hne]
    have harg : Real.logb 10 fMin + (Real.logb 10 f - Real.logb 10 fMin)
        = Real.logb 10 f := by ring
    rw [harg]
    exact Real.rpow_logb (by norm_num) (by norm_num) hfpos
  refine ⟨main, fun f width hf20 hf2e4 hw => ?_⟩
  rw [main f 20 20000 width (by norm_num) (by norm_num) (by linarith) hf20 hf2e4]
  norm_num

/-- Witness for C7: the round trip at 1 kHz on an 800-px-wide display. -/
theorem logX_roundtrip_witness :
    (0 : ℝ) < 20 ∧ (20 : ℝ) < 20000 ∧ (0 : ℝ) < 800 ∧
    (20 : ℝ) ≤ 1000 ∧ (1000 : ℝ) ≤ 20000 ∧
    logXToFrequency (frequencyToLogX 1000 20 20000 800) 20 20000 800 = 1000 :=
  ⟨by norm_num, by norm_num, by norm_num, by norm_num, by norm_num,
   logX_roundtrip.1 1000 20 20000 800 (by norm_num) (by norm_num) (by norm_num)
     (by norm_num) (by norm_num)⟩

/-- C8: `aggregateBands` returns exactly one value per band, and every
returned value lies in the display range `[-100, 0]` dB, for every spectrum,
positive sample rate and FFT size, band list and reducer. -/
theorem aggregateBands_clamped (data : ℝ → ℝ) (sampleRate fftSize : ℝ)
    (bands : List LogBandEdge) (reducer : Reducer)
    (_hsr : 0 < sampleRate) (_hfft : 0 < fftSize) :
    (aggregateBands data sampleRate fftSize bands reducer).length = bands.length ∧
    ∀ v ∈ aggregateBands data sampleRate fftSize bands reducer,
      -100 ≤ v ∧ v ≤ 0 := by
  constructor
  · simp [aggregateBands]
  · intro v hv
    simp only [aggregateBands, List.mem_map] at hv
    obtain ⟨b, hb, rfl⟩ := hv
    exact ⟨le_max_left _ _, max_le (by norm_num) (min_le_left _ _)⟩

/-- Witness for C8 on a constant −40 dB spectrum with one band. -/
theorem aggregateBands_clamped_witness :
    (0 : ℝ) < 48000 ∧ (0 : ℝ) < 1024 ∧
    (aggregateBands (fun _ => -40) 48000 1024 [dummyBand] Reducer.mean).length
        = [dummyBand].length ∧
    (∀ v ∈ aggregateBands (fun _ => -40) 48000 1024 [dummyBand] Reducer.mean,
      -100 ≤ v ∧ v ≤ 0) :=
  ⟨by norm_num, by norm_num,
   (aggregateBands_clamped (fun _ => -40) 48000 1024 [dummyBand] Reducer.mean
     (by norm_num) (by norm_num)).1,
   (aggregateBands_clamped (fun _ => -40) 48000 1024 [dummyBand] Reducer.mean
     (by norm_num) (by norm_num)).2⟩

/-- C10: for `sampleRate > 0`, `fftSize ≥ 2` and a spectrum of length at
least `fftSize / 2`, every loop index `k` that `aggregateBands` reads for a
band `[fLow, fHigh]` satisfies `0 ≤ k ≤ fftSize / 2 - 1` (hence `k` is below
the array length), and the forced upper bound `k1` satisfies
`k1 ≤ fftSize / 2`: no array access is out of bounds. -/
theorem freqToBin_loop_bounds (sampleRate fftSize len fLow fHigh : ℝ)
    (_hsr : 0 < sampleRate) (hfft : 2 ≤ fftSize) (hlen : fftSize / 2 ≤ len) :
    (∀ k ∈ loopIndices (freqToBin fLow sampleRate fftSize)
        (max (freqToBin fLow sampleRate fftSize + 1)
          (freqToBin fHigh sampleRate fftSize)),
      0 ≤ k ∧ k ≤ fftSize / 2 - 1 ∧ k < len) ∧
    max (freqToBin fLow sampleRate fftSize + 1)
        (freqToBin fHigh sampleRate fftSize) ≤ fftSize / 2 := by
  have h0 : ∀ fr, 0 ≤ freqToBin fr sampleRate fftSize := by
    intro fr
    simp only [freqToBin]
    exact le_max_left _ _
  have hub : ∀ fr, freqToBin fr sampleRate fftSize ≤ fftSize / 2 - 1 := by
    intro fr
    simp only [freqToBin]
    exact max_le (by linarith) (min_le_left _ _)
  have hk1 : max (freqToBin fLow sampleRate fftSize + 1)
      (freqToBin fHigh sampleRate fftSize) ≤ fftSize / 2 := by
    have hL := hub fLow
    have hH := hub fHigh
    apply max_le <;> linarith
  refine ⟨?_, hk1⟩
  intro k hk
  rw [loopIndices, List.mem_map] at hk
  obtain ⟨j, hj, rfl⟩ := hk
  rw [List.mem_range, Int.lt_toNat] at hj
  have hjlt : (j : ℝ) < max (freqToBin fLow sampleRate fftSize + 1)
      (freqToBin fHigh sampleRate fftSize) - freqToBin fLow sampleRate fftSize := by
    exact_mod_cast Int.lt_ceil.mp hj
  have hkle : freqToBin fLow sampleRate fftSize + (j : ℝ) ≤ fftSize / 2 - 1 := by
    rcases lt_max_iff.mp (by linarith :
        freqToBin fLow sampleRate fftSize + (j : ℝ) <
          max (freqToBin fLow sampleRate fftSize + 1)
            (freqToBin fHigh sampleRate fftSize)) with hcase | hcase
    · have hj1 : (j : ℝ) < 1 := by linarith
      have hj1n : j < 1 := by exact_mod_cast hj1
      have hj0 : j = 0 := Nat.lt_one_iff.mp hj1n
      subst hj0
      simpa using hub fLow
    · have := hub fHigh
      linarith
  exact ⟨add_nonneg (h0 fLow) (Nat.cast_nonneg j), hkle, by linarith⟩

/-- Witness for C10 at a 48 kHz, 1024-point configuration with a 512-bin
spectrum and the band 100–200 Hz. -/
theorem freqToBin_loop_bounds_witness :
    (0 : ℝ) < 48000 ∧ (2 : ℝ) ≤ 1024 ∧ (1024 : ℝ) / 2 ≤ 512 ∧
    (∀ k ∈ loopIndices (freqToBin 100 48000 1024)
        (max (freqToBin 100 48000 1024 + 1) (freqToBin 200 48000 1024)),
      0 ≤ k ∧ k ≤ 1024 / 2 - 1 ∧ k < 512) ∧
    max (freqToBin 100 48000 1024 + 1) (freqToBin 200 48000 1024) ≤ 1024 / 2 :=
  ⟨by norm_num, by norm_num, by norm_num,
   (freqToBin_loop_bounds 48000 1024 512 100 200 (by norm_num) (by norm_num)
     (by norm_num)).1,
   (freqToBin_loop_bounds 48000 1024 512 100 200 (by norm_num) (by norm_num)
     (by norm_num)).2⟩

end ToneAssist
